import Mathlib

/-!
Verification of the mini-language front-end analyzer (src/work1/lexer.cpp).

The C++ `Analyzer` class is shallowly embedded here.  The character cursor
`pos` and the token cursor `tokenPos` only ever move forward in the source,
so both are modelled by consuming from the front of a `List`.  The member
state mutated by the parser (`tokens`, `symbolTable`, `errors`) is an
explicit record `St` threaded through the phases.  The two unbounded loops
(`tokenize`'s scan loop, `parseDefinitionBody`'s group loop and
`parseRealizationBody`'s statement loop) are written with an explicit
fuel argument so that every definition is structurally recursive and
computes by kernel reduction; the top-level entry points supply fuel
`length + 1`, which is always sufficient because every iteration consumes
at least one character resp. token (proved below for the tokenizer).
-/

/-- Token kinds, one constructor per enumerator of the C++ `TokenType`. -/
inductive TokenType where
  | KEYWORD_VAR
  | KEYWORD_INTEGER
  | KEYWORD_LONGINT
  | KEYWORD_BOOL
  | KEYWORD_IF
  | KEYWORD_THEN
  | KEYWORD_ELSE
  | KEYWORD_WHILE
  | KEYWORD_DO
  | KEYWORD_FOR
  | KEYWORD_BEGIN
  | KEYWORD_END
  | KEYWORD_AND
  | KEYWORD_OR
  | OPERATOR_PLUS
  | OPERATOR_MINUS
  | OPERATOR_MULTIPLY
  | OPERATOR_DIVIDE
  | OPERATOR_ASSIGN
  | OPERATOR_LT
  | OPERATOR_GT
  | OPERATOR_NE
  | OPERATOR_GE
  | OPERATOR_LE
  | OPERATOR_EQ
  | DELIMITER_SEMICOLON
  | DELIMITER_COLON
  | DELIMITER_LPAREN
  | DELIMITER_RPAREN
  | DELIMITER_COMMA
  | IDENTIFIER
  | NUMBER
  | ERROR
deriving DecidableEq, Repr

/-- A token: the C++ `struct Token { TokenType type; std::string value; }`. -/
structure Token where
  type : TokenType
  value : String
deriving DecidableEq, Repr

/-- C `isspace` on the default locale: space (32) and the controls 9-13. -/
def isSpaceC (c : Char) : Bool := c.toNat = 32 || (9 ≤ c.toNat && c.toNat ≤ 13)

/-- C `isalpha` on the default locale: the ASCII ranges 65-90 and 97-122. -/
def isAlphaC (c : Char) : Bool :=
  (65 ≤ c.toNat && c.toNat ≤ 90) || (97 ≤ c.toNat && c.toNat ≤ 122)

/-- C `isdigit`: the ASCII range 48-57. -/
def isDigitC (c : Char) : Bool := 48 ≤ c.toNat && c.toNat ≤ 57

/-- C `isalnum`. -/
def isAlnumC (c : Char) : Bool := isAlphaC c || isDigitC c

/-- C `tolower`: shift an upper-case ASCII letter down by 32. -/
def toLowerC (c : Char) : Char :=
  if 65 ≤ c.toNat ∧ c.toNat ≤ 90 then Char.ofNat (c.toNat + 32) else c

/-- `Analyzer::isDelimiter`: the twelve characters `; : , ( ) + - * / < > =`
(codes 59 58 44 40 41 43 45 42 47 60 62 61). -/
def isDelimiterC (c : Char) : Bool :=
  c.toNat = 59 || c.toNat = 58 || c.toNat = 44 || c.toNat = 40 || c.toNat = 41 ||
  c.toNat = 43 || c.toNat = 45 || c.toNat = 42 || c.toNat = 47 || c.toNat = 60 ||
  c.toNat = 62 || c.toNat = 61

/-- The keyword set built in the `Analyzer` constructor. -/
def keywords : List String :=
  ["var", "integer", "longint", "bool", "if", "then", "else",
   "while", "do", "for", "begin", "end", "and", "or"]

/-- The type-name set built in the `Analyzer` constructor. -/
def typeNames : List String := ["integer", "longint", "bool"]

/-- `Analyzer::toLower`, applied character by character. -/
def toLowerStr (s : String) : String := String.mk (s.toList.map toLowerC)

/-- `Analyzer::getKeywordType`: the if-chain from keyword text to kind. -/
def getKeywordType (keyword : String) : TokenType :=
  if keyword = "var" then .KEYWORD_VAR
  else if keyword = "integer" then .KEYWORD_INTEGER
  else if keyword = "longint" then .KEYWORD_LONGINT
  else if keyword = "bool" then .KEYWORD_BOOL
  else if keyword = "if" then .KEYWORD_IF
  else if keyword = "then" then .KEYWORD_THEN
  else if keyword = "else" then .KEYWORD_ELSE
  else if keyword = "while" then .KEYWORD_WHILE
  else if keyword = "do" then .KEYWORD_DO
  else if keyword = "for" then .KEYWORD_FOR
  else if keyword = "begin" then .KEYWORD_BEGIN
  else if keyword = "end" then .KEYWORD_END
  else if keyword = "and" then .KEYWORD_AND
  else if keyword = "or" then .KEYWORD_OR
  else .ERROR

/-- `Analyzer::readIdentifierOrKeyword`: take characters while neither
whitespace nor a delimiter, look the lower-cased text up among the keywords,
otherwise validate it as an identifier (first character alphabetic, all
characters alphanumeric).  On an empty scan the C++ reads `tokenStr[0]`,
which for `std::string` is the terminating NUL, not alphabetic, so the
result is an `ERROR` token with empty text. -/
def readIdentifierOrKeyword (cs : List Char) : Token × List Char :=
  let tokenStr := cs.takeWhile (fun c => !isSpaceC c && !isDelimiterC c)
  let rest := cs.dropWhile (fun c => !isSpaceC c && !isDelimiterC c)
  let lowerToken := String.mk (tokenStr.map toLowerC)
  if keywords.contains lowerToken then
    (⟨getKeywordType lowerToken, String.mk tokenStr⟩, rest)
  else
    match tokenStr with
    | [] => (⟨.ERROR, ""⟩, rest)
    | c0 :: _ =>
      if !isAlphaC c0 then (⟨.ERROR, String.mk tokenStr⟩, rest)
      else if tokenStr.all isAlnumC then (⟨.IDENTIFIER, String.mk tokenStr⟩, rest)
      else (⟨.ERROR, String.mk tokenStr⟩, rest)

/-- `Analyzer::readNumber`: the maximal digit run, as a `NUMBER` token. -/
def readNumber (cs : List Char) : Token × List Char :=
  (⟨.NUMBER, String.mk (cs.takeWhile isDigitC)⟩, cs.dropWhile isDigitC)

/-- `Analyzer::readOperator`: one- and two-character operators and
delimiters, with two-character lookahead for `:= <> <= >= ==`; a lone `=`
and any unrecognized character give an `ERROR` token. -/
def readOperator (cs : List Char) : Token × List Char :=
  match cs with
  | [] => (⟨.ERROR, ""⟩, [])
  | c :: rest =>
    if c = '+' then (⟨.OPERATOR_PLUS, "+"⟩, rest)
    else if c = '-' then (⟨.OPERATOR_MINUS, "-"⟩, rest)
    else if c = '*' then (⟨.OPERATOR_MULTIPLY, "*"⟩, rest)
    else if c = '/' then (⟨.OPERATOR_DIVIDE, "/"⟩, rest)
    else if c = ';' then (⟨.DELIMITER_SEMICOLON, ";"⟩, rest)
    else if c = '(' then (⟨.DELIMITER_LPAREN, "("⟩, rest)
    else if c = ')' then (⟨.DELIMITER_RPAREN, ")"⟩, rest)
    else if c = ',' then (⟨.DELIMITER_COMMA, ","⟩, rest)
    else if c = ':' then
      match rest with
      | c2 :: rest2 =>
        if c2 = '=' then (⟨.OPERATOR_ASSIGN, ":="⟩, rest2)
        else (⟨.DELIMITER_COLON, ":"⟩, c2 :: rest2)
      | [] => (⟨.DELIMITER_COLON, ":"⟩, [])
    else if c = '<' then
      match rest with
      | c2 :: rest2 =>
        if c2 = '>' then (⟨.OPERATOR_NE, "<>"⟩, rest2)
        else if c2 = '=' then (⟨.OPERATOR_LE, "<="⟩, rest2)
        else (⟨.OPERATOR_LT, "<"⟩, c2 :: rest2)
      | [] => (⟨.OPERATOR_LT, "<"⟩, [])
    else if c = '>' then
      match rest with
      | c2 :: rest2 =>
        if c2 = '=' then (⟨.OPERATOR_GE, ">="⟩, rest2)
        else (⟨.OPERATOR_GT, ">"⟩, c2 :: rest2)
      | [] => (⟨.OPERATOR_GT, ">"⟩, [])
    else if c = '=' then
      match rest with
      | c2 :: rest2 =>
        if c2 = '=' then (⟨.OPERATOR_EQ, "=="⟩, rest2)
        else (⟨.ERROR, "="⟩, c2 :: rest2)
      | [] => (⟨.ERROR, "="⟩, [])
    else (⟨.ERROR, String.mk [c]⟩, rest)

/-- `Analyzer::tokenize`'s scan loop, with fuel.  Each iteration either
skips one whitespace character or emits the token of the scanner selected
by the current character's class. -/
def tokenizeF : Nat → List Char → List Token
  | 0, _ => []
  | _ + 1, [] => []
  | f + 1, c :: cs =>
    if isSpaceC c then tokenizeF f cs
    else if isAlphaC c then
      let r := readIdentifierOrKeyword (c :: cs)
      r.1 :: tokenizeF f r.2
    else if isDigitC c then
      let r := readNumber (c :: cs)
      r.1 :: tokenizeF f r.2
    else
      let r := readOperator (c :: cs)
      r.1 :: tokenizeF f r.2

/-- `Analyzer::tokenize` on the whole source text.  Fuel `length + 1` is
sufficient: every iteration consumes at least one character (see
`tokenizeF_fuel_irrelevant`). -/
def tokenize (s : String) : List Token := tokenizeF (s.toList.length + 1) s.toList

/-- The mutable member state of `Analyzer` threaded through the parsing
phases: the remaining token sequence (the cursor `tokenPos` only moves
forward, so it is modelled by consuming from the front), the symbol table
`符号表` as an insertion-ordered association list, and the diagnostics list
`errors`. -/
structure St where
  tokens : List Token
  symbolTable : List (String × String)
  errors : List String
deriving DecidableEq, Repr

/-- `symbolTable.count(v)` of the C++ `unordered_map`: is `v` a key. -/
def tblContains (tbl : List (String × String)) (v : String) : Bool :=
  tbl.any (fun p => p.1 == v)

/-- `tokens[tokenPos].type == ty` guarded by `tokenPos < tokens.size()`. -/
def headIs (ts : List Token) (ty : TokenType) : Bool :=
  match ts with
  | [] => false
  | t :: _ => t.type == ty

/-- The comma loop of `parseDefinitionBody` (lines 247-260): while the next
token is a comma, consume it and require a following identifier, collecting
the identifier texts.  Returns the collected names, the remaining tokens and
the diagnostic raised, if any.  (The inner `ERROR` re-check of line 253 is
kept even though the preceding identifier check already excludes it.) -/
def collectVars : List String → List Token → List String × List Token × Option String
  | vars, [] => (vars, [], none)
  | vars, t :: ts =>
    if t.type = .DELIMITER_COMMA then
      match ts with
      | [] => (vars, [], some "逗号后期望标识符")
      | t2 :: ts2 =>
        if t2.type ≠ .IDENTIFIER then (vars, t2 :: ts2, some "逗号后期望标识符")
        else if t2.type = .ERROR then (vars, ts2, some ("无效的标识符: " ++ t2.value))
        else collectVars (vars ++ [t2.value]) ts2
    else (vars, t :: ts, none)

/-- The symbol-table insertion loop of `parseDefinitionBody` (lines
283-289): insert each collected name with the resolved type, stopping with
a duplicate-definition diagnostic at the first name already present;
names inserted before the duplicate stay inserted. -/
def insertVars : List String → String → List (String × String) →
    List (String × String) × Option String
  | [], _, tbl => (tbl, none)
  | v :: vs, ty, tbl =>
    if tblContains tbl v then (tbl, some ("变量重复定义: " ++ v))
    else insertVars vs ty (tbl ++ [(v, ty)])

/-- The group loop of `Analyzer::parseDefinitionBody`, with fuel.  One
iteration validates one `ident{,ident}:type;` group: leading identifier,
comma-separated identifier list, colon, known type name, symbol-table
insertion, terminating semicolon; any violation records one diagnostic and
stops.  The loop exits at a `begin` token or when the tokens run out. -/
def defLoop : Nat → St → St
  | 0, st => st
  | f + 1, st =>
    match st.tokens with
    | [] => st
    | t :: ts =>
      if t.type = .KEYWORD_BEGIN then st
      else if t.type = .ERROR then
        { st with tokens := ts, errors := st.errors ++ ["无效的关键词: " ++ t.value] }
      else if t.type ≠ .IDENTIFIER then
        { st with tokens := ts, errors := st.errors ++ ["未定义有效标识符: " ++ t.value] }
      else
        match collectVars [t.value] ts with
        | (_, rest, some e) => { st with tokens := rest, errors := st.errors ++ [e] }
        | (vars, rest, none) =>
          match rest with
          | [] => { st with tokens := [], errors := st.errors ++ ["变量后缺少 ':'"] }
          | r :: rs =>
            if r.type = .IDENTIFIER then
              { st with tokens := r :: rs, errors := st.errors ++ ["标识符之间缺少逗号"] }
            else if r.type ≠ .DELIMITER_COLON then
              { st with tokens := r :: rs, errors := st.errors ++ ["变量后缺少 ':'"] }
            else
              match rs with
              | [] =>
                { st with tokens := [], errors := st.errors ++ ["期望类型 (integer, longint, bool)，找到: 无"] }
              | u :: us =>
                if typeNames.contains (toLowerStr u.value) then
                  match insertVars vars (toLowerStr u.value) st.symbolTable with
                  | (tbl2, some e) =>
                    { st with tokens := us, symbolTable := tbl2, errors := st.errors ++ [e] }
                  | (tbl2, none) =>
                    match us with
                    | [] =>
                      { st with tokens := [], symbolTable := tbl2, errors := st.errors ++ ["变量声明后缺少 ';'"] }
                    | w :: ws =>
                      if w.type = .DELIMITER_SEMICOLON then
                        defLoop f { st with tokens := ws, symbolTable := tbl2 }
                      else
                        { st with tokens := w :: ws, symbolTable := tbl2, errors := st.errors ++ ["变量声明后缺少 ';'"] }
                else
                  { st with tokens := u :: us, errors := st.errors ++ ["期望类型 (integer, longint, bool)，找到: " ++ u.value] }

/-- `Analyzer::parseDefinitionBody`.  Fuel `length + 1` is sufficient:
every group consumes at least one token. -/
def parseDefinitionBody (st : St) : St := defLoop (st.tokens.length + 1) st

/-- The condition scan of the `while` and `if` branches (lines 354-359 and
383-388): consume tokens, counting `(` up and `)` down from the given
count, until the count reaches zero (returning the remaining tokens) or the
tokens run out (returning `none`, the unbalanced case). -/
def skipParens : List Token → Nat → Option (List Token)
  | ts, 0 => some ts
  | [], _ + 1 => none
  | t :: ts, n + 1 =>
    if t.type = .DELIMITER_LPAREN then skipParens ts (n + 2)
    else if t.type = .DELIMITER_RPAREN then skipParens ts n
    else skipParens ts (n + 1)

/-- The unterminated-construct check after the statement loop (lines
440-443): a nonempty block stack reports the top marker. -/
def stackCheck (blockStack : List String) (st : St) : St :=
  match blockStack with
  | [] => st
  | b :: _ => { st with errors := st.errors ++ ["缺少 'end' 来匹配 " ++ b] }

/-- The statement loop of `Analyzer::parseRealizationBody`, with fuel.  The
block stack (vector `blockStack`, top at the front here) is the extra
argument.  The loop guard exits at the first `end` token, so the
`KEYWORD_END` arm inside the dispatch (lines 406-423, kept here verbatim)
is unreachable. -/
def realLoopF : Nat → List String → St → St
  | 0, _, st => st
  | f + 1, blockStack, st =>
    match st.tokens with
    | [] => stackCheck blockStack st
    | t :: ts =>
      if t.type = .KEYWORD_END then stackCheck blockStack st
      else if t.type = .ERROR then
        { st with tokens := ts, errors := st.errors ++ ["实现部分中的无效令牌: " ++ t.value] }
      else if t.type = .IDENTIFIER then
        if !tblContains st.symbolTable t.value then
          { st with errors := st.errors ++ ["未定义的变量: " ++ t.value] }
        else
          match ts with
          | [] => { st with tokens := [], errors := st.errors ++ ["标识符后缺少 ':=': " ++ t.value] }
          | a :: ts2 =>
            if a.type ≠ .OPERATOR_ASSIGN then
              { st with tokens := a :: ts2, errors := st.errors ++ ["标识符后缺少 ':=': " ++ t.value] }
            else
              match ts2 with
              | [] =>
                { st with tokens := [], errors := st.errors ++ ["':=' 后期望数字或标识符，找到: 无"] }
              | r :: ts3 =>
                if r.type ≠ .NUMBER ∧ r.type ≠ .IDENTIFIER then
                  { st with tokens := r :: ts3, errors := st.errors ++ ["':=' 后期望数字或标识符，找到: " ++ r.value] }
                else if r.type = .IDENTIFIER ∧ !tblContains st.symbolTable r.value then
                  { st with tokens := r :: ts3, errors := st.errors ++ ["赋值中未定义的变量: " ++ r.value] }
                else
                  match ts3 with
                  | [] => { st with tokens := [], errors := st.errors ++ ["赋值后缺少 ';'"] }
                  | s :: ts4 =>
                    if s.type = .DELIMITER_SEMICOLON then
                      realLoopF f blockStack { st with tokens := ts4 }
                    else
                      { st with tokens := s :: ts4, errors := st.errors ++ ["赋值后缺少 ';'"] }
      else if t.type = .KEYWORD_WHILE then
        match ts with
        | [] => { st with tokens := [], errors := st.errors ++ ["while 后缺少 '('"] }
        | p :: ts2 =>
          if p.type ≠ .DELIMITER_LPAREN then
            { st with tokens := p :: ts2, errors := st.errors ++ ["while 后缺少 '('"] }
          else
            match skipParens ts2 1 with
            | none => { st with tokens := [], errors := st.errors ++ ["while 条件中括号未闭合"] }
            | some rest =>
              match rest with
              | [] => { st with tokens := [], errors := st.errors ++ ["while 条件后缺少 'do'"] }
              | d :: ts3 =>
                if d.type = .KEYWORD_DO then
                  realLoopF f ("while" :: blockStack) { st with tokens := ts3 }
                else
                  { st with tokens := d :: ts3, errors := st.errors ++ ["while 条件后缺少 'do'"] }
      else if t.type = .KEYWORD_IF then
        match ts with
        | [] => { st with tokens := [], errors := st.errors ++ ["if 后缺少 '('"] }
        | p :: ts2 =>
          if p.type ≠ .DELIMITER_LPAREN then
            { st with tokens := p :: ts2, errors := st.errors ++ ["if 后缺少 '('"] }
          else
            match skipParens ts2 1 with
            | none => { st with tokens := [], errors := st.errors ++ ["if 条件中括号未闭合"] }
            | some rest =>
              match rest with
              | [] => { st with tokens := [], errors := st.errors ++ ["if 条件后缺少 'then'"] }
              | d :: ts3 =>
                if d.type = .KEYWORD_THEN then
                  realLoopF f ("if" :: blockStack) { st with tokens := ts3 }
                else
                  { st with tokens := d :: ts3, errors := st.errors ++ ["if 条件后缺少 'then'"] }
      else if t.type = .KEYWORD_BEGIN then
        realLoopF f ("begin" :: blockStack) { st with tokens := ts }
      else if t.type = .KEYWORD_END then
        match blockStack with
        | [] => { st with errors := st.errors ++ ["多余的 'end'"] }
        | lastBlock :: bs =>
          if bs ≠ [] ∧ headIs ts .DELIMITER_SEMICOLON = false then
            { st with tokens := ts, errors := st.errors ++ [lastBlock ++ " 的 'end' 后缺少 ';'"] }
          else if headIs ts .DELIMITER_SEMICOLON then
            realLoopF f bs { st with tokens := ts.tail }
          else
            realLoopF f bs { st with tokens := ts }
      else if t.type = .KEYWORD_ELSE then
        match blockStack with
        | [] => { st with errors := st.errors ++ ["'else' 未匹配到 'if'"] }
        | b :: _ =>
          if b ≠ "if" then { st with errors := st.errors ++ ["'else' 未匹配到 'if'"] }
          else realLoopF f blockStack { st with tokens := ts }
      else
        { st with tokens := ts, errors := st.errors ++ ["意外的token: " ++ t.value] }

/-- `Analyzer::parseRealizationBody`: the statement loop started with an
empty block stack.  Fuel `length + 1` is sufficient: every iteration
consumes at least one token. -/
def parseRealizationBody (st : St) : St := realLoopF (st.tokens.length + 1) [] st

/-- `Analyzer::parse`, the program driver: leading `var`, declaration
phase, `begin` (checked only while no diagnostic exists), realization
phase, and a final check that the current token is `end`. -/
def parse (st : St) : St :=
  match st.tokens with
  | [] => { st with errors := st.errors ++ ["程序起始缺少合法的 'var'"] }
  | t :: ts =>
    if t.type ≠ .KEYWORD_VAR then
      { st with errors := st.errors ++ ["程序起始缺少合法的 'var'"] }
    else
      let st1 := parseDefinitionBody { st with tokens := ts }
      if st1.errors = [] ∧ headIs st1.tokens .KEYWORD_BEGIN = false then
        { st1 with errors := st1.errors ++ ["定义部分后缺少 'begin'"] }
      else if st1.errors ≠ [] then st1
      else
        let st3 := parseRealizationBody { st1 with tokens := st1.tokens.tail }
        if st3.errors = [] ∧ headIs st3.tokens .KEYWORD_END = false then
          { st3 with errors := st3.errors ++ ["程序结束处缺少 'end'"] }
        else st3

/-- `Analyzer::analyze`: tokenize, report `程序为空` on an empty token
sequence, otherwise parse; the result is the final diagnostics list
(empty means the success report). -/
def analyze (s : String) : List String :=
  let toks := tokenize s
  if toks.isEmpty then ["程序为空"]
  else (parse { tokens := toks, symbolTable := [], errors := [] }).errors

/-- The state st' extends the diagnostics of base by at most one message. -/
def ErrExt (base : List String) (st' : St) : Prop :=
  st'.errors = base ∨ ∃ e, st'.errors = base ++ [e]

/-- A token run over which the condition scan's count never returns to
zero and ends back at its starting surplus of one: appended before the
closing parenthesis, such a run is consumed whole by `skipParens`. -/
def condOk : List Token → Nat → Bool
  | [], n => n == 1
  | t :: ts, n =>
    let m := if t.type = TokenType.DELIMITER_LPAREN then n + 1
             else if t.type = TokenType.DELIMITER_RPAREN then n - 1 else n
    m != 0 && condOk ts m

/-! ## Tokenizer lemmas: consumption bounds, totality, determinism -/

theorem dropWhile_length_le (p : Char → Bool) (l : List Char) :
    (l.dropWhile p).length ≤ l.length := by
  induction l with
  | nil => simp
  | cons c cs ih =>
    by_cases h : p c
    · simp only [List.dropWhile_cons, if_pos h]
      exact Nat.le_succ_of_le ih
    · simp [List.dropWhile_cons, h]

/-- An alphabetic character is neither whitespace nor a delimiter, so the
identifier scan always takes its first character. -/
theorem isAlphaC_scan_pred (c : Char) (h : isAlphaC c = true) :
    (!isSpaceC c && !isDelimiterC c) = true := by
  simp [isAlphaC, isSpaceC, isDelimiterC] at h ⊢
  omega

/-- Every branch of the identifier scan returns the same remainder: the
input with the scanned prefix dropped. -/
theorem readIdentifierOrKeyword_snd (cs : List Char) :
    (readIdentifierOrKeyword cs).2 =
      cs.dropWhile (fun c => !isSpaceC c && !isDelimiterC c) := by
  simp only [readIdentifierOrKeyword]
  repeat' split
  all_goals rfl

/-- The identifier scan consumes at least one character when it starts at
an alphabetic character. -/
theorem readIdentifierOrKeyword_length (c : Char) (cs : List Char)
    (h : isAlphaC c = true) :
    (readIdentifierOrKeyword (c :: cs)).2.length ≤ cs.length := by
  have hp : (fun x => !isSpaceC x && !isDelimiterC x) c = true := isAlphaC_scan_pred c h
  rw [readIdentifierOrKeyword_snd, List.dropWhile_cons, if_pos hp]
  exact dropWhile_length_le _ cs

/-- The number scan consumes at least one character when it starts at a
digit. -/
theorem readNumber_length (c : Char) (cs : List Char) (h : isDigitC c = true) :
    (readNumber (c :: cs)).2.length ≤ cs.length := by
  simp only [readNumber, List.dropWhile_cons, h, if_pos]
  exact dropWhile_length_le _ cs
theorem readOperator_cons (c : Char) (cs : List Char) :
    readOperator (c :: cs) =
      (if c = '+' then (⟨.OPERATOR_PLUS, "+"⟩, cs)
       else if c = '-' then (⟨.OPERATOR_MINUS, "-"⟩, cs)
       else if c = '*' then (⟨.OPERATOR_MULTIPLY, "*"⟩, cs)
       else if c = '/' then (⟨.OPERATOR_DIVIDE, "/"⟩, cs)
       else if c = ';' then (⟨.DELIMITER_SEMICOLON, ";"⟩, cs)
       else if c = '(' then (⟨.DELIMITER_LPAREN, "("⟩, cs)
       else if c = ')' then (⟨.DELIMITER_RPAREN, ")"⟩, cs)
       else if c = ',' then (⟨.DELIMITER_COMMA, ","⟩, cs)
       else if c = ':' then
         match cs with
         | c2 :: rest2 =>
           if c2 = '=' then (⟨.OPERATOR_ASSIGN, ":="⟩, rest2)
           else (⟨.DELIMITER_COLON, ":"⟩, c2 :: rest2)
         | [] => (⟨.DELIMITER_COLON, ":"⟩, [])
       else if c = '<' then
         match cs with
         | c2 :: rest2 =>
           if c2 = '>' then (⟨.OPERATOR_NE, "<>"⟩, rest2)
           else if c2 = '=' then (⟨.OPERATOR_LE, "<="⟩, rest2)
           else (⟨.OPERATOR_LT, "<"⟩, c2 :: rest2)
         | [] => (⟨.OPERATOR_LT, "<"⟩, [])
       else if c = '>' then
         match cs with
         | c2 :: rest2 =>
           if c2 = '=' then (⟨.OPERATOR_GE, ">="⟩, rest2)
           else (⟨.OPERATOR_GT, ">"⟩, c2 :: rest2)
         | [] => (⟨.OPERATOR_GT, ">"⟩, [])
       else if c = '=' then
         match cs with
         | c2 :: rest2 =>
           if c2 = '=' then (⟨.OPERATOR_EQ, "=="⟩, rest2)
           else (⟨.ERROR, "="⟩, c2 :: rest2)
         | [] => (⟨.ERROR, "="⟩, [])
       else (⟨.ERROR, String.mk [c]⟩, cs)) := rfl

theorem readOperator_length (c : Char) (cs : List Char) :
    (readOperator (c :: cs)).2.length ≤ cs.length := by
  rw [readOperator_cons]
  by_cases h1 : c = '+'
  · rw [if_pos h1]
  rw [if_neg h1]
  by_cases h2 : c = '-'
  · rw [if_pos h2]
  rw [if_neg h2]
  by_cases h3 : c = '*'
  · rw [if_pos h3]
  rw [if_neg h3]
  by_cases h4 : c = '/'
  · rw [if_pos h4]
  rw [if_neg h4]
  by_cases h5 : c = ';'
  · rw [if_pos h5]
  rw [if_neg h5]
  by_cases h6 : c = '('
  · rw [if_pos h6]
  rw [if_neg h6]
  by_cases h7 : c = ')'
  · rw [if_pos h7]
  rw [if_neg h7]
  by_cases h8 : c = ','
  · rw [if_pos h8]
  rw [if_neg h8]
  by_cases h9 : c = ':'
  · rw [if_pos h9]
    cases cs with
    | nil => exact Nat.le_refl _
    | cons c2 r2 =>
      show (if c2 = '=' then (⟨.OPERATOR_ASSIGN, ":="⟩, r2)
            else (⟨.DELIMITER_COLON, ":"⟩, c2 :: r2) : Token × List Char).2.length ≤
        (c2 :: r2).length
      by_cases hq : c2 = '='
      · rw [if_pos hq]; exact Nat.le_succ _
      · rw [if_neg hq]
  rw [if_neg h9]
  by_cases h10 : c = '<'
  · rw [if_pos h10]
    cases cs with
    | nil => exact Nat.le_refl _
    | cons c2 r2 =>
      show (if c2 = '>' then (⟨.OPERATOR_NE, "<>"⟩, r2)
            else if c2 = '=' then (⟨.OPERATOR_LE, "<="⟩, r2)
            else (⟨.OPERATOR_LT, "<"⟩, c2 :: r2) : Token × List Char).2.length ≤
        (c2 :: r2).length
      by_cases hq : c2 = '>'
      · rw [if_pos hq]; exact Nat.le_succ _
      rw [if_neg hq]
      by_cases hq2 : c2 = '='
      · rw [if_pos hq2]; exact Nat.le_succ _
      · rw [if_neg hq2]
  rw [if_neg h10]
  by_cases h11 : c = '>'
  · rw [if_pos h11]
    cases cs with
    | nil => exact Nat.le_refl _
    | cons c2 r2 =>
      show (if c2 = '=' then (⟨.OPERATOR_GE, ">="⟩, r2)
            else (⟨.OPERATOR_GT, ">"⟩, c2 :: r2) : Token × List Char).2.length ≤
        (c2 :: r2).length
      by_cases hq : c2 = '='
      · rw [if_pos hq]; exact Nat.le_succ _
      · rw [if_neg hq]
  rw [if_neg h11]
  by_cases h12 : c = '='
  · rw [if_pos h12]
    cases cs with
    | nil => exact Nat.le_refl _
    | cons c2 r2 =>
      show (if c2 = '=' then (⟨.OPERATOR_EQ, "=="⟩, r2)
            else (⟨.ERROR, "="⟩, c2 :: r2) : Token × List Char).2.length ≤
        (c2 :: r2).length
      by_cases hq : c2 = '='
      · rw [if_pos hq]; exact Nat.le_succ _
      · rw [if_neg hq]
  rw [if_neg h12]

/-- Each emitted token accounts for at least one consumed character, so
the token sequence is never longer than the source. -/
theorem tokenizeF_length (f : Nat) (cs : List Char) :
    (tokenizeF f cs).length ≤ cs.length := by
  induction f generalizing cs with
  | zero => simp [tokenizeF]
  | succ f ih =>
    cases cs with
    | nil => simp [tokenizeF]
    | cons c cs' =>
      by_cases hs : isSpaceC c = true
      · simp only [tokenizeF]
        simp only [if_pos hs]
        exact Nat.le_succ_of_le (ih cs')
      · by_cases ha : isAlphaC c = true
        · simp only [tokenizeF]
          simp only [if_neg hs, if_pos ha, List.length_cons]
          exact Nat.succ_le_succ (Nat.le_trans (ih _) (readIdentifierOrKeyword_length c cs' ha))
        · by_cases hd : isDigitC c = true
          · simp only [tokenizeF]
            simp only [if_neg hs, if_neg ha, if_pos hd, List.length_cons]
            exact Nat.succ_le_succ (Nat.le_trans (ih _) (readNumber_length c cs' hd))
          · simp only [tokenizeF]
            simp only [if_neg hs, if_neg ha, if_neg hd, List.length_cons]
            exact Nat.succ_le_succ (Nat.le_trans (ih _) (readOperator_length c cs'))

/-- Any fuel beyond the source length gives the same token sequence: the
scan loop terminates within `length` iterations because every iteration
consumes at least one character. -/
theorem tokenizeF_fuel (f f' : Nat) (cs : List Char) (h : cs.length < f)
    (h' : cs.length < f') : tokenizeF f cs = tokenizeF f' cs := by
  induction f generalizing f' cs with
  | zero => omega
  | succ f ih =>
    cases f' with
    | zero => omega
    | succ f' =>
      cases cs with
      | nil => simp [tokenizeF]
      | cons c cs' =>
        simp only [List.length_cons] at h h'
        by_cases hs : isSpaceC c = true
        · simp only [tokenizeF]
          simp only [if_pos hs]
          exact ih f' cs' (by omega) (by omega)
        · by_cases ha : isAlphaC c = true
          · simp only [tokenizeF]
            simp only [if_neg hs, if_pos ha]
            have hl := readIdentifierOrKeyword_length c cs' ha
            rw [ih f' ((readIdentifierOrKeyword (c :: cs')).2) (by omega) (by omega)]
          · by_cases hd : isDigitC c = true
            · simp only [tokenizeF]
              simp only [if_neg hs, if_neg ha, if_pos hd]
              have hl := readNumber_length c cs' hd
              rw [ih f' ((readNumber (c :: cs')).2) (by omega) (by omega)]
            · simp only [tokenizeF]
              simp only [if_neg hs, if_neg ha, if_neg hd]
              have hl := readOperator_length c cs'
              rw [ih f' ((readOperator (c :: cs')).2) (by omega) (by omega)]

/-- C10: the tokenizer is a total, terminating function: for every finite
source text the scan loop needs no more than `length` iterations (fuel
beyond that is irrelevant), because each iteration consumes at least one
character through exactly one of the four scanners, and it produces a
finite token sequence no longer than the source; in particular `tokenize`
itself, which runs the loop at fuel `length + 1`, satisfies the bound. -/
theorem c10_tokenize_total :
    (∀ f cs, cs.length < f → tokenizeF f cs = tokenizeF (cs.length + 1) cs) ∧
    (∀ f cs, (tokenizeF f cs).length ≤ cs.length) ∧
    (∀ s : String, (tokenize s).length ≤ s.toList.length) :=
  ⟨fun f cs h => tokenizeF_fuel f (cs.length + 1) cs h (Nat.lt_succ_self _),
   fun f cs => tokenizeF_length f cs,
   fun s => tokenizeF_length (s.toList.length + 1) s.toList⟩

theorem c10_tokenize_total_witness :
    tokenizeF 9 "a:=1".toList = tokenizeF ("a:=1".toList.length + 1) "a:=1".toList ∧
    (tokenizeF 9 "a:=1".toList).length ≤ "a:=1".toList.length ∧
    (tokenize "a:=1").length ≤ "a:=1".toList.length :=
  ⟨c10_tokenize_total.1 9 "a:=1".toList (by decide),
   c10_tokenize_total.2.1 9 "a:=1".toList,
   c10_tokenize_total.2.2 "a:=1"⟩

/-- On an all-whitespace source every iteration takes the whitespace-skip
branch, so no token is ever emitted. -/
theorem tokenizeF_all_space (f : Nat) (cs : List Char)
    (h : ∀ c ∈ cs, isSpaceC c = true) : tokenizeF f cs = [] := by
  induction f generalizing cs with
  | zero => simp [tokenizeF]
  | succ f ih =>
    cases cs with
    | nil => simp [tokenizeF]
    | cons c cs' =>
      have hc : isSpaceC c = true := h c (by simp)
      simp only [tokenizeF]
      simp only [if_pos hc]
      exact ih cs' (fun x hx => h x (by simp [hx]))

/-- C8: empty or whitespace-only source text tokenizes to the empty token
sequence, and `analyze` then records exactly the single `程序为空` (empty
program) diagnostic before any parsing is attempted. -/
theorem c8_empty_input_empty_program (s : String)
    (h : ∀ c ∈ s.toList, isSpaceC c = true) :
    tokenize s = [] ∧ analyze s = ["程序为空"] := by
  have ht : tokenize s = [] := tokenizeF_all_space _ _ h
  exact ⟨ht, by simp [analyze, ht]⟩

theorem c8_empty_input_empty_program_witness :
    tokenize " \t\n" = [] ∧ analyze " \t\n" = ["程序为空"] :=
  c8_empty_input_empty_program " \t\n" (by decide)

/-! ## Concrete program evaluations (C1, C2, C3) -/

/-- C1 (evaluation at the failing input): the program
`Var i:integer;Begin Begin End End` is well-formed by the claim's reading
(one nested `begin … end` block whose `end` leaves the stack empty after
the pop, then the outer `end`), yet `analyze` rejects it with
`缺少 'end' 来匹配 begin`: the statement loop's guard exits at the first
`end` token, so the pushed `begin` marker is never popped. -/
theorem c1_nested_block_never_closed :
    analyze "Var i:integer;Begin Begin End End" = ["缺少 'end' 来匹配 begin"] := by
  decide

/-- C2 counterexample: on `Var i:integer;Begin i=0;End` the recorded
diagnostic is the missing-`:=` one, not the claimed
`实现部分中的无效令牌` (invalid token in realization) one. -/
theorem c2_counterexample_missing_assign_not_invalid_token :
    analyze "Var i:integer;Begin i=0;End" = ["标识符后缺少 ':=': i"] ∧
    "标识符后缺少 ':=': i" ≠ "实现部分中的无效令牌: =" := by
  constructor
  · decide
  · decide

/-- C2 amended: the lone `=` is tokenized as a lexical `ERROR` token, but
the Structural Validator has already entered the assignment branch on the
identifier `i`, so it reports the missing-`:=` diagnostic naming `i`
(`标识符后缺少 ':=': i`) and stops. -/
theorem c2_amended_lone_equals_reports_missing_assign :
    tokenize "Var i:integer;Begin i=0;End" =
      [⟨.KEYWORD_VAR, "Var"⟩, ⟨.IDENTIFIER, "i"⟩, ⟨.DELIMITER_COLON, ":"⟩,
       ⟨.KEYWORD_INTEGER, "integer"⟩, ⟨.DELIMITER_SEMICOLON, ";"⟩,
       ⟨.KEYWORD_BEGIN, "Begin"⟩, ⟨.IDENTIFIER, "i"⟩, ⟨.ERROR, "="⟩,
       ⟨.NUMBER, "0"⟩, ⟨.DELIMITER_SEMICOLON, ";"⟩, ⟨.KEYWORD_END, "End"⟩] ∧
    analyze "Var i:integer;Begin i=0;End" = ["标识符后缺少 ':=': i"] := by
  constructor
  · decide
  · decide

/-- C3 counterexample: the digit-led text `9i` is not tokenized as a single
error token carrying `9i`; no error token is produced at all for the input
`Var 9i:integer;`. -/
theorem c3_counterexample_digit_led_not_error_token :
    tokenize "9i" = [⟨.NUMBER, "9"⟩, ⟨.IDENTIFIER, "i"⟩] ∧
    ∀ t ∈ tokenize "Var 9i:integer;", t.type ≠ TokenType.ERROR := by
  constructor
  · decide
  · decide

/-- C3 amended: identifier-position text beginning with a digit is split by
the tokenizer into a `NUMBER` token holding the maximal digit prefix and
the separately scanned remainder (never a single error token), so for
`Var 9i:integer;` the Declaration Validator sees the `NUMBER` token `9`
where an identifier is required and reports the expected-identifier
diagnostic `未定义有效标识符: 9`, stopping there. -/
theorem c3_amended_digit_led_splits_number_then_ident :
    tokenize "Var 9i:integer;" =
      [⟨.KEYWORD_VAR, "Var"⟩, ⟨.NUMBER, "9"⟩, ⟨.IDENTIFIER, "i"⟩,
       ⟨.DELIMITER_COLON, ":"⟩, ⟨.KEYWORD_INTEGER, "integer"⟩,
       ⟨.DELIMITER_SEMICOLON, ";"⟩] ∧
    analyze "Var 9i:integer;" = ["未定义有效标识符: 9"] := by
  constructor
  · decide
  · decide

/-! ## Declaration Validator: duplicate definitions (C7) -/

theorem tblContains_append (a b : List (String × String)) (v : String) :
    tblContains (a ++ b) v = (tblContains a v || tblContains b v) := by
  simp [tblContains, List.any_append]

/-- C7: when a declaration group's name list contains a name that is
already a Symbol Table key at the moment of its insertion, the insertion
loop stops with the duplicate-definition diagnostic naming exactly that
identifier; the names before it in the list are inserted (and stay
inserted), the names after it are not.  The conjunct evaluates the whole
analyzer on the repository's own duplicate-definition test case. -/
theorem c7_duplicate_declaration (pre : List String) (v : String)
    (post : List String) (ty : String) (tbl : List (String × String))
    (hfresh : ∀ x ∈ pre, tblContains tbl x = false)
    (hnodup : pre.Nodup)
    (hdup : tblContains tbl v = true ∨ v ∈ pre) :
    insertVars (pre ++ v :: post) ty tbl =
      (tbl ++ pre.map (fun x => (x, ty)), some ("变量重复定义: " ++ v)) ∧
    analyze "Var i:integer;i:bool;" = ["变量重复定义: i"] := by
  refine ⟨?_, by decide⟩
  induction pre generalizing tbl with
  | nil =>
    have hv : tblContains tbl v = true := by
      rcases hdup with h | h
      · exact h
      · simp at h
    simp [insertVars, hv]
  | cons x pre ih =>
    have hx : tblContains tbl x = false := hfresh x (by simp)
    have hnx : x ∉ pre := (List.nodup_cons.mp hnodup).1
    simp only [List.cons_append, insertVars]
    rw [if_neg (by simp [hx])]
    simp only [List.append_eq]
    have hfresh' : ∀ y ∈ pre, tblContains (tbl ++ [(x, ty)]) y = false := by
      intro y hy
      rw [tblContains_append]
      have h1 : tblContains tbl y = false := hfresh y (by simp [hy])
      have h2 : tblContains [(x, ty)] y = false := by
        simp [tblContains]
        intro he
        exact absurd (he ▸ hy) hnx
      simp [h1, h2]
    have hdup' : tblContains (tbl ++ [(x, ty)]) v = true ∨ v ∈ pre := by
      rcases hdup with h | h
      · left; rw [tblContains_append, h]; simp
      · rcases List.mem_cons.mp h with h | h
        · left; rw [tblContains_append]; simp [tblContains, h]
        · right; exact h
    rw [(ih (tbl ++ [(x, ty)]) hfresh' (List.nodup_cons.mp hnodup).2 hdup')]
    simp

theorem c7_duplicate_declaration_witness :
    insertVars (["i"] ++ "i" :: ["j"]) "integer" [] =
      ([] ++ ["i"].map (fun x => (x, "integer")), some ("变量重复定义: " ++ "i")) ∧
    analyze "Var i:integer;i:bool;" = ["变量重复定义: i"] :=
  c7_duplicate_declaration ["i"] "i" ["j"] "integer" []
    (by decide) (by decide) (by decide)

theorem stackCheck_errext (bs : List String) (st : St) :
    ErrExt st.errors (stackCheck bs st) := by
  cases bs with
  | nil => left; rfl
  | cons b bs => right; exact ⟨_, rfl⟩

theorem defLoop_errext (f : Nat) (st : St) : ErrExt st.errors (defLoop f st) := by
  induction f generalizing st with
  | zero => left; rfl
  | succ f ih =>
    simp only [defLoop]
    repeat' split
    all_goals try (left; rfl)
    all_goals try (right; exact ⟨_, rfl⟩)
    all_goals exact ih _

theorem realLoopF_errext (f : Nat) (bs : List String) (st : St) :
    ErrExt st.errors (realLoopF f bs st) := by
  induction f generalizing bs st with
  | zero => left; rfl
  | succ f ih =>
    simp only [realLoopF]
    repeat' split
    all_goals try (right; exact ⟨_, rfl⟩)
    all_goals try exact ih _ _
    all_goals exact stackCheck_errext _ _

theorem realLoopF_symbolTable (f : Nat) (bs : List String) (st : St) :
    (realLoopF f bs st).symbolTable = st.symbolTable := by
  induction f generalizing bs st with
  | zero => rfl
  | succ f ih =>
    simp only [realLoopF]
    repeat' split
    all_goals try rfl
    all_goals try exact ih _ _
    all_goals (unfold stackCheck; split <;> rfl)

theorem errExt_base_nil (base : List String) (st' : St)
    (h : ErrExt base st') (hn : st'.errors = []) : base = [] := by
  rcases h with h | ⟨e, he⟩
  · rw [← h, hn]
  · rw [hn] at he
    exact absurd he.symm (by simp)

theorem parse_errext (st : St) : ErrExt st.errors (parse st) := by
  cases hts : st.tokens with
  | nil => right; exact ⟨"程序起始缺少合法的 'var'", by simp [parse, hts]⟩
  | cons t ts =>
    by_cases hv : t.type ≠ TokenType.KEYWORD_VAR
    · right; exact ⟨"程序起始缺少合法的 'var'", by simp [parse, hts, hv]⟩
    · simp only [parse, hts]
      rw [if_neg hv]
      have h1 : ErrExt st.errors (parseDefinitionBody { st with tokens := ts }) := by
        have := defLoop_errext ((List.length ts) + 1) { st with tokens := ts }
        simp only [parseDefinitionBody]
        exact this
      set st1 := parseDefinitionBody { st with tokens := ts } with hst1
      by_cases hb : st1.errors = [] ∧ headIs st1.tokens TokenType.KEYWORD_BEGIN = false
      · rw [if_pos hb]
        right
        refine ⟨"定义部分后缺少 'begin'", ?_⟩
        show st1.errors ++ _ = st.errors ++ _
        rw [errExt_base_nil st.errors st1 h1 hb.1, hb.1]
      · rw [if_neg hb]
        by_cases hne : st1.errors ≠ []
        · rw [if_pos hne]
          exact h1
        · rw [if_neg hne]
          push_neg at hne
          have hbase : st.errors = [] := errExt_base_nil st.errors st1 h1 hne
          have h3 : ErrExt ({ st1 with tokens := st1.tokens.tail } : St).errors
              (parseRealizationBody { st1 with tokens := st1.tokens.tail }) := by
            have := realLoopF_errext
              ((({ st1 with tokens := st1.tokens.tail } : St).tokens.length) + 1) []
              { st1 with tokens := st1.tokens.tail }
            simpa [parseRealizationBody] using this
          set st3 := parseRealizationBody { st1 with tokens := st1.tokens.tail } with hst3
          have h3' : ErrExt st.errors st3 := by
            rw [hbase]
            rw [show ({ st1 with tokens := st1.tokens.tail } : St).errors = [] from hne] at h3
            exact h3
          by_cases hc : st3.errors = [] ∧ headIs st3.tokens TokenType.KEYWORD_END = false
          · rw [if_pos hc]
            right
            refine ⟨"程序结束处缺少 'end'", ?_⟩
            show st3.errors ++ _ = st.errors ++ _
            rw [hc.1, hbase]
          · rw [if_neg hc]
            exact h3'

/-- C5: for every input the final diagnostics list of `analyze` holds at
most one message: each validator phase appends at most one diagnostic and
returns at its first violation (`ErrExt`), and the driver appends only
while the list is still empty. -/
theorem c5_at_most_one_diagnostic (s : String) : (analyze s).length ≤ 1 := by
  by_cases h : (tokenize s).isEmpty
  · simp [analyze, h]
  · have := parse_errext { tokens := tokenize s, symbolTable := [], errors := [] }
    simp only [analyze, h]
    rw [if_neg (by simp [h])]
    rcases this with h2 | ⟨e, h2⟩
    · simp [h2]
    · simp [h2]

/-! ## Symbol Table frame property (C9) -/

/-- C9: the Symbol Table is read-only during the Structural Validator
phase: the statement loop never writes `symbolTable` (at any fuel and any
block stack), `parseRealizationBody` preserves it, and on the driver path
the final mapping of `parse` is exactly the mapping `parseDefinitionBody`
produced. -/
theorem c9_symbol_table_readonly_in_realization :
    (∀ f bs st, (realLoopF f bs st).symbolTable = st.symbolTable) ∧
    (∀ st, (parseRealizationBody st).symbolTable = st.symbolTable) ∧
    (∀ st t ts, st.tokens = t :: ts → t.type = TokenType.KEYWORD_VAR →
      (parse st).symbolTable =
        (parseDefinitionBody { st with tokens := ts }).symbolTable) := by
  refine ⟨realLoopF_symbolTable, fun st => realLoopF_symbolTable _ [] st, ?_⟩
  intro st t ts hts htype
  simp only [parse, hts]
  rw [if_neg (by simp [htype])]
  set st1 := parseDefinitionBody { st with tokens := ts } with hst1
  by_cases hb : st1.errors = [] ∧ headIs st1.tokens TokenType.KEYWORD_BEGIN = false
  · rw [if_pos hb]
  · rw [if_neg hb]
    by_cases hne : st1.errors ≠ []
    · rw [if_pos hne]
    · rw [if_neg hne]
      have hframe := realLoopF_symbolTable
        ((({ st1 with tokens := st1.tokens.tail } : St).tokens.length) + 1) []
        { st1 with tokens := st1.tokens.tail }
      set st3 := parseRealizationBody { st1 with tokens := st1.tokens.tail } with hst3
      have h3 : st3.symbolTable = st1.symbolTable := by
        rw [hst3, parseRealizationBody]
        exact hframe
      by_cases hc : st3.errors = [] ∧ headIs st3.tokens TokenType.KEYWORD_END = false
      · rw [if_pos hc]
        exact h3
      · rw [if_neg hc]
        exact h3

theorem c9_symbol_table_readonly_in_realization_witness :
    (realLoopF 1 [] ⟨[], [], []⟩).symbolTable = ([] : List (String × String)) ∧
    (parseRealizationBody ⟨[⟨.KEYWORD_END, "End"⟩], [("i", "integer")], []⟩).symbolTable =
      [("i", "integer")] ∧
    (parse ⟨[⟨.KEYWORD_VAR, "Var"⟩, ⟨.KEYWORD_BEGIN, "Begin"⟩, ⟨.KEYWORD_END, "End"⟩],
        [], []⟩).symbolTable =
      (parseDefinitionBody ⟨[⟨.KEYWORD_BEGIN, "Begin"⟩, ⟨.KEYWORD_END, "End"⟩],
        [], []⟩).symbolTable :=
  ⟨c9_symbol_table_readonly_in_realization.1 1 [] ⟨[], [], []⟩,
   c9_symbol_table_readonly_in_realization.2.1
     ⟨[⟨.KEYWORD_END, "End"⟩], [("i", "integer")], []⟩,
   c9_symbol_table_readonly_in_realization.2.2
     ⟨[⟨.KEYWORD_VAR, "Var"⟩, ⟨.KEYWORD_BEGIN, "Begin"⟩, ⟨.KEYWORD_END, "End"⟩], [], []⟩
     ⟨.KEYWORD_VAR, "Var"⟩ [⟨.KEYWORD_BEGIN, "Begin"⟩, ⟨.KEYWORD_END, "End"⟩] rfl rfl⟩

theorem condOk_skipParens (cond : List Token) (n : Nat) (rp : Token)
    (rest : List Token) (hn : 0 < n) (hok : condOk cond n = true)
    (hrp : rp.type = TokenType.DELIMITER_RPAREN) :
    skipParens (cond ++ rp :: rest) n = some rest := by
  induction cond generalizing n with
  | nil =>
    have h1 : n = 1 := by simpa [condOk] using hok
    subst h1
    simp only [List.nil_append, skipParens, hrp]
    rfl
  | cons t cond ih =>
    obtain ⟨k, rfl⟩ : ∃ k, n = k + 1 := ⟨n - 1, by omega⟩
    simp only [condOk, Bool.and_eq_true, bne_iff_ne] at hok
    obtain ⟨hm, hok'⟩ := hok
    simp only [List.cons_append, skipParens]
    by_cases hl : t.type = TokenType.DELIMITER_LPAREN
    · rw [if_pos hl]
      have : (if t.type = TokenType.DELIMITER_LPAREN then k + 1 + 1
              else if t.type = TokenType.DELIMITER_RPAREN then k + 1 - 1 else k + 1) =
          k + 2 := by rw [if_pos hl]
      rw [this] at hm hok'
      exact ih (k + 2) (by omega) hok'
    · rw [if_neg hl]
      by_cases hr : t.type = TokenType.DELIMITER_RPAREN
      · rw [if_pos hr]
        have : (if t.type = TokenType.DELIMITER_LPAREN then k + 1 + 1
                else if t.type = TokenType.DELIMITER_RPAREN then k + 1 - 1 else k + 1) =
            k := by rw [if_neg hl, if_pos hr]; omega
        rw [this] at hm hok'
        exact ih k (by omega) hok'
      · rw [if_neg hr]
        have : (if t.type = TokenType.DELIMITER_LPAREN then k + 1 + 1
                else if t.type = TokenType.DELIMITER_RPAREN then k + 1 - 1 else k + 1) =
            k + 1 := by rw [if_neg hl, if_neg hr]
        rw [this] at hm hok'
        exact ih (k + 1) (by omega) hok'

theorem noParens_condOk (cond : List Token)
    (h : ∀ t ∈ cond, t.type ≠ TokenType.DELIMITER_LPAREN ∧
      t.type ≠ TokenType.DELIMITER_RPAREN) :
    condOk cond 1 = true := by
  induction cond with
  | nil => rfl
  | cons t cond ih =>
    have ht := h t (by simp)
    simp only [condOk, if_neg ht.1, if_neg ht.2]
    simp only [Bool.and_eq_true, bne_iff_ne]
    exact ⟨by omega, ih (fun x hx => h x (by simp [hx]))⟩

/-- C4: in the Structural Validator a `while` (and identically an `if`,
which requires `then` instead of `do`) is validated as: `(` required right
after the keyword; the condition scanned by balanced-parenthesis counting
only, so any token run `cond` with `condOk cond 1` — empty or holding
arbitrary, unvalidated tokens, as the last conjunct shows for every
parenthesis-free run — is accepted without diagnostic and the loop
continues behind the required `do` (resp. `then`) with the marker pushed;
an exhausted scan reports the unbalanced-parentheses diagnostic and a
missing `do` (resp. `then`) after the balancing `)` its own diagnostic,
each stopping the phase. -/
theorem c4_condition_scan_balance_only :
    (∀ f bs st wv ts, st.tokens = (⟨.KEYWORD_WHILE, wv⟩ : Token) :: ts →
      headIs ts .DELIMITER_LPAREN = false →
      (realLoopF (f + 1) bs st).errors = st.errors ++ ["while 后缺少 '('"]) ∧
    (∀ f bs st wv pv ts, st.tokens = (⟨.KEYWORD_WHILE, wv⟩ : Token) ::
        (⟨.DELIMITER_LPAREN, pv⟩ : Token) :: ts →
      skipParens ts 1 = none →
      (realLoopF (f + 1) bs st).errors = st.errors ++ ["while 条件中括号未闭合"]) ∧
    (∀ f bs st wv pv ts rest, st.tokens = (⟨.KEYWORD_WHILE, wv⟩ : Token) ::
        (⟨.DELIMITER_LPAREN, pv⟩ : Token) :: ts →
      skipParens ts 1 = some rest → headIs rest .KEYWORD_DO = false →
      (realLoopF (f + 1) bs st).errors = st.errors ++ ["while 条件后缺少 'do'"]) ∧
    (∀ f bs st wv pv rv dv cond rest,
      st.tokens = (⟨.KEYWORD_WHILE, wv⟩ : Token) :: (⟨.DELIMITER_LPAREN, pv⟩ : Token) ::
        (cond ++ (⟨.DELIMITER_RPAREN, rv⟩ : Token) :: (⟨.KEYWORD_DO, dv⟩ : Token) :: rest) →
      condOk cond 1 = true →
      realLoopF (f + 1) bs st = realLoopF f ("while" :: bs) { st with tokens := rest }) ∧
    (∀ f bs st iv ts, st.tokens = (⟨.KEYWORD_IF, iv⟩ : Token) :: ts →
      headIs ts .DELIMITER_LPAREN = false →
      (realLoopF (f + 1) bs st).errors = st.errors ++ ["if 后缺少 '('"]) ∧
    (∀ f bs st iv pv ts, st.tokens = (⟨.KEYWORD_IF, iv⟩ : Token) ::
        (⟨.DELIMITER_LPAREN, pv⟩ : Token) :: ts →
      skipParens ts 1 = none →
      (realLoopF (f + 1) bs st).errors = st.errors ++ ["if 条件中括号未闭合"]) ∧
    (∀ f bs st iv pv ts rest, st.tokens = (⟨.KEYWORD_IF, iv⟩ : Token) ::
        (⟨.DELIMITER_LPAREN, pv⟩ : Token) :: ts →
      skipParens ts 1 = some rest → headIs rest .KEYWORD_THEN = false →
      (realLoopF (f + 1) bs st).errors = st.errors ++ ["if 条件后缺少 'then'"]) ∧
    (∀ f bs st iv pv rv tv cond rest,
      st.tokens = (⟨.KEYWORD_IF, iv⟩ : Token) :: (⟨.DELIMITER_LPAREN, pv⟩ : Token) ::
        (cond ++ (⟨.DELIMITER_RPAREN, rv⟩ : Token) :: (⟨.KEYWORD_THEN, tv⟩ : Token) :: rest) →
      condOk cond 1 = true →
      realLoopF (f + 1) bs st = realLoopF f ("if" :: bs) { st with tokens := rest }) ∧
    (∀ cond : List Token, (∀ t ∈ cond, t.type ≠ TokenType.DELIMITER_LPAREN ∧
        t.type ≠ TokenType.DELIMITER_RPAREN) → condOk cond 1 = true) := by
  refine ⟨?_, ?_, ?_, ?_, ?_, ?_, ?_, ?_, noParens_condOk⟩
  · intro f bs st wv ts hts hhead
    simp only [realLoopF, hts, reduceCtorEq, reduceIte]
    cases ts with
    | nil => rfl
    | cons p ts2 =>
      have hp : (p.type = TokenType.DELIMITER_LPAREN) = False := by
        simp only [headIs] at hhead
        simpa using hhead
      simp only [ne_eq, hp, not_false_eq_true, if_true]
  · intro f bs st wv pv ts hts hskip
    simp only [realLoopF, hts, reduceCtorEq, reduceIte]
    simp only [hskip]
    rfl
  · intro f bs st wv pv ts rest hts hskip hhead
    simp only [realLoopF, hts, reduceCtorEq, reduceIte]
    simp only [hskip]
    cases rest with
    | nil => rfl
    | cons d ts3 =>
      have hd : (d.type = TokenType.KEYWORD_DO) = False := by
        simp only [headIs] at hhead
        simpa using hhead
      simp only [hd, if_false]
      rfl
  · intro f bs st wv pv rv dv cond rest hts hok
    have hskip : skipParens (cond ++ (⟨.DELIMITER_RPAREN, rv⟩ : Token) ::
        ((⟨.KEYWORD_DO, dv⟩ : Token) :: rest)) 1 = some ((⟨.KEYWORD_DO, dv⟩ : Token) :: rest) :=
      condOk_skipParens cond 1 ⟨.DELIMITER_RPAREN, rv⟩ _ (by omega) hok rfl
    simp only [realLoopF, hts, reduceCtorEq, reduceIte]
    simp only [hskip]
    rfl
  · intro f bs st iv ts hts hhead
    simp only [realLoopF, hts, reduceCtorEq, reduceIte]
    cases ts with
    | nil => rfl
    | cons p ts2 =>
      have hp : (p.type = TokenType.DELIMITER_LPAREN) = False := by
        simp only [headIs] at hhead
        simpa using hhead
      simp only [ne_eq, hp, not_false_eq_true, if_true]
  · intro f bs st iv pv ts hts hskip
    simp only [realLoopF, hts, reduceCtorEq, reduceIte]
    simp only [hskip]
    rfl
  · intro f bs st iv pv ts rest hts hskip hhead
    simp only [realLoopF, hts, reduceCtorEq, reduceIte]
    simp only [hskip]
    cases rest with
    | nil => rfl
    | cons d ts3 =>
      have hd : (d.type = TokenType.KEYWORD_THEN) = False := by
        simp only [headIs] at hhead
        simpa using hhead
      simp only [hd, if_false]
      rfl
  · intro f bs st iv pv rv tv cond rest hts hok
    have hskip : skipParens (cond ++ (⟨.DELIMITER_RPAREN, rv⟩ : Token) ::
        ((⟨.KEYWORD_THEN, tv⟩ : Token) :: rest)) 1 =
        some ((⟨.KEYWORD_THEN, tv⟩ : Token) :: rest) :=
      condOk_skipParens cond 1 ⟨.DELIMITER_RPAREN, rv⟩ _ (by omega) hok rfl
    simp only [realLoopF, hts, reduceCtorEq, reduceIte]
    simp only [hskip]
    rfl

theorem c4_condition_scan_balance_only_witness :
    (realLoopF 1 [] ⟨[⟨.KEYWORD_WHILE, "while"⟩], [], []⟩).errors =
      [] ++ ["while 后缺少 '('"] ∧
    (realLoopF 1 [] ⟨[⟨.KEYWORD_WHILE, "while"⟩, ⟨.DELIMITER_LPAREN, "("⟩],
      [], []⟩).errors = [] ++ ["while 条件中括号未闭合"] ∧
    (realLoopF 1 [] ⟨[⟨.KEYWORD_WHILE, "while"⟩, ⟨.DELIMITER_LPAREN, "("⟩,
      ⟨.DELIMITER_RPAREN, ")"⟩], [], []⟩).errors = [] ++ ["while 条件后缺少 'do'"] ∧
    realLoopF 1 [] ⟨[⟨.KEYWORD_WHILE, "while"⟩, ⟨.DELIMITER_LPAREN, "("⟩,
        ⟨.ERROR, "#"⟩, ⟨.DELIMITER_RPAREN, ")"⟩, ⟨.KEYWORD_DO, "do"⟩], [], []⟩ =
      realLoopF 0 ["while"] ⟨[], [], []⟩ ∧
    (realLoopF 1 [] ⟨[⟨.KEYWORD_IF, "if"⟩], [], []⟩).errors =
      [] ++ ["if 后缺少 '('"] ∧
    (realLoopF 1 [] ⟨[⟨.KEYWORD_IF, "if"⟩, ⟨.DELIMITER_LPAREN, "("⟩],
      [], []⟩).errors = [] ++ ["if 条件中括号未闭合"] ∧
    (realLoopF 1 [] ⟨[⟨.KEYWORD_IF, "if"⟩, ⟨.DELIMITER_LPAREN, "("⟩,
      ⟨.DELIMITER_RPAREN, ")"⟩], [], []⟩).errors = [] ++ ["if 条件后缺少 'then'"] ∧
    realLoopF 1 [] ⟨[⟨.KEYWORD_IF, "if"⟩, ⟨.DELIMITER_LPAREN, "("⟩,
        ⟨.ERROR, "#"⟩, ⟨.DELIMITER_RPAREN, ")"⟩, ⟨.KEYWORD_THEN, "then"⟩], [], []⟩ =
      realLoopF 0 ["if"] ⟨[], [], []⟩ ∧
    condOk [⟨.NUMBER, "1"⟩] 1 = true :=
  ⟨c4_condition_scan_balance_only.1 0 [] _ "while" [] rfl rfl,
   c4_condition_scan_balance_only.2.1 0 [] _ "while" "(" [] rfl rfl,
   c4_condition_scan_balance_only.2.2.1 0 [] _ "while" "(" [⟨.DELIMITER_RPAREN, ")"⟩]
     [] rfl rfl rfl,
   c4_condition_scan_balance_only.2.2.2.1 0 [] _ "while" "(" ")" "do"
     [⟨.ERROR, "#"⟩] [] rfl (by decide),
   c4_condition_scan_balance_only.2.2.2.2.1 0 [] _ "if" [] rfl rfl,
   c4_condition_scan_balance_only.2.2.2.2.2.1 0 [] _ "if" "(" [] rfl rfl,
   c4_condition_scan_balance_only.2.2.2.2.2.2.1 0 [] _ "if" "("
     [⟨.DELIMITER_RPAREN, ")"⟩] [] rfl rfl rfl,
   c4_condition_scan_balance_only.2.2.2.2.2.2.2.1 0 [] _ "if" "(" ")" "then"
     [⟨.ERROR, "#"⟩] [] rfl (by decide),
   c4_condition_scan_balance_only.2.2.2.2.2.2.2.2 [⟨.NUMBER, "1"⟩] (by decide)⟩

/-- The declaration loop exits untouched at a leading `begin` token,
whatever the fuel. -/
theorem defLoop_begin_exit (f : Nat) (st : St) (v : String) (ts : List Token)
    (hts : st.tokens = ⟨.KEYWORD_BEGIN, v⟩ :: ts) : defLoop f st = st := by
  cases f with
  | zero => rfl
  | succ f =>
    simp only [defLoop, hts, reduceIte]

/-- With an empty block stack the statement loop exits untouched at a
leading `end` token, whatever the fuel: the guard stops there and the
stack check has nothing to report. -/
theorem realLoopF_end_exit (f : Nat) (st : St) (v : String) (ts : List Token)
    (hts : st.tokens = ⟨.KEYWORD_END, v⟩ :: ts) : realLoopF f [] st = st := by
  cases f with
  | zero => rfl
  | succ f =>
    simp only [realLoopF, hts, reduceIte]
    rfl

/-- The declaration phase consumes exactly the group `i:integer;`,
records the binding, and stops at `begin`, for any trailing tokens. -/
theorem c6_step1 (junk : List Token) :
    parseDefinitionBody ⟨(⟨.IDENTIFIER, "i"⟩ : Token) :: ⟨.DELIMITER_COLON, ":"⟩ ::
        ⟨.KEYWORD_INTEGER, "integer"⟩ :: ⟨.DELIMITER_SEMICOLON, ";"⟩ ::
        ⟨.KEYWORD_BEGIN, "Begin"⟩ :: ⟨.KEYWORD_END, "End"⟩ :: junk, [], []⟩ =
      ⟨(⟨.KEYWORD_BEGIN, "Begin"⟩ : Token) :: ⟨.KEYWORD_END, "End"⟩ :: junk,
        [("i", "integer")], []⟩ := by
  have htype : typeNames.contains (toLowerStr "integer") = true := by decide
  have hins : insertVars ["i"] (toLowerStr "integer") [] =
      ([("i", "integer")], none) := by decide
  simp only [parseDefinitionBody, List.length_cons]
  simp only [defLoop, collectVars, reduceCtorEq, reduceIte, ne_eq,
    not_true_eq_false, if_false, htype, if_true, hins]

/-- The realization phase started at the outer `end` returns at once. -/
theorem c6_step2 (junk : List Token) (tbl : List (String × String)) :
    parseRealizationBody ⟨(⟨.KEYWORD_END, "End"⟩ : Token) :: junk, tbl, []⟩ =
      ⟨(⟨.KEYWORD_END, "End"⟩ : Token) :: junk, tbl, []⟩ := by
  simp only [parseRealizationBody]
  exact realLoopF_end_exit _ _ "End" _ rfl

/-- The driver on `Var i:integer;Begin End` plus arbitrary trailing
tokens: success, with the outer `end` and the trailing run unconsumed. -/
theorem c6_driver (junk : List Token) :
    parse ⟨([⟨.KEYWORD_VAR, "Var"⟩, ⟨.IDENTIFIER, "i"⟩, ⟨.DELIMITER_COLON, ":"⟩,
        ⟨.KEYWORD_INTEGER, "integer"⟩, ⟨.DELIMITER_SEMICOLON, ";"⟩,
        ⟨.KEYWORD_BEGIN, "Begin"⟩, ⟨.KEYWORD_END, "End"⟩] : List Token) ++ junk,
        [], []⟩ =
      ⟨(⟨.KEYWORD_END, "End"⟩ : Token) :: junk, [("i", "integer")], []⟩ := by
  simp only [List.cons_append, List.nil_append]
  simp only [parse, reduceCtorEq, reduceIte, ne_eq, not_true_eq_false, if_false,
    not_false_eq_true, if_true]
  rw [c6_step1 junk]
  simp only [headIs, reduceCtorEq, reduceIte, List.tail_cons]
  rw [c6_step2 junk [("i", "integer")]]
  simp

/-- C6: when the Structural Validator returns without a diagnostic the
driver only checks that the current token is `end` and consumes nothing
further: for the well-formed program `Var i:integer;Begin End` followed by
arbitrary trailing tokens, `parse` succeeds and leaves the outer `end` and
the entire trailing token run untouched; in particular
`analyze "Var i:integer;Begin End End"` (a stray second `End`) succeeds. -/
theorem c6_trailing_tokens_after_outer_end_ignored (junk : List Token) :
    (parse ⟨([⟨.KEYWORD_VAR, "Var"⟩, ⟨.IDENTIFIER, "i"⟩, ⟨.DELIMITER_COLON, ":"⟩,
        ⟨.KEYWORD_INTEGER, "integer"⟩, ⟨.DELIMITER_SEMICOLON, ";"⟩,
        ⟨.KEYWORD_BEGIN, "Begin"⟩, ⟨.KEYWORD_END, "End"⟩] : List Token) ++ junk,
        [], []⟩).errors = [] ∧
    (parse ⟨([⟨.KEYWORD_VAR, "Var"⟩, ⟨.IDENTIFIER, "i"⟩, ⟨.DELIMITER_COLON, ":"⟩,
        ⟨.KEYWORD_INTEGER, "integer"⟩, ⟨.DELIMITER_SEMICOLON, ";"⟩,
        ⟨.KEYWORD_BEGIN, "Begin"⟩, ⟨.KEYWORD_END, "End"⟩] : List Token) ++ junk,
        [], []⟩).tokens = ⟨.KEYWORD_END, "End"⟩ :: junk ∧
    analyze "Var i:integer;Begin End End" = [] := by
  rw [c6_driver junk]
  exact ⟨rfl, rfl, by decide⟩
